import Mathlib

/-!
Shallow embedding of the ore-cli transaction-submission subsystem
(src/main.rs, src/claim.rs, src/register.rs, src/busses.rs).

Modelling conventions:
* `Pubkey`, `Hash` and account data are modelled as `Nat` / `List Nat`;
  the claims never depend on their internal structure.
* The RPC client is effectful; every RPC call a function performs is
  modelled as an explicit input holding that call's result
  (`Except TransportErr _` for fallible fetches), so each embedded
  function is a pure function of the miner state plus the responses the
  network would deliver.
* External-crate helpers that only derive deterministic addresses
  (`spl_associated_token_account::get_associated_token_address`,
  `utils::proof_pubkey`) are passed as explicit function parameters:
  their internals live outside this repository and no claim depends on
  them beyond determinism.
* Floating point: `claim` computes `amountf = (amount as f64) / 10f64.powf(9)`
  and tests `amountf < 0.0`.  For a `u64` input the conversion to `f64`
  and the division by the positive constant `10^9` preserve the sign
  exactly (IEEE-754 rounding is monotone and sign-preserving on
  non-negative values, and `0.0 < 0.0` is false), so the branch test is
  embedded as the exact rational comparison, which has the same truth
  value for every `u64` input.
-/

namespace OreCli

/-- Transport/network error returned by a failed RPC call. -/
structure TransportErr where
  code : Nat
deriving DecidableEq, Repr

/-- Error returned by `RpcClient::get_account`: the account may be absent
(`accountNotFound`) or the node unreachable (`transport`). -/
inductive FetchErr
  | accountNotFound
  | transport (e : TransportErr)
deriving DecidableEq, Repr

/-- Instruction descriptors produced by the builders in this repository.
`setComputeUnitLimit` and `setComputeUnitPrice` are the two fee-control
(compute-budget) instructions; the others are the action instructions. -/
inductive Instruction
  | setComputeUnitLimit (limit : Nat)
  | setComputeUnitPrice (price : Nat)
  | oreClaim (signer beneficiary : Nat) (amount : Nat)
  | oreRegister (signer : Nat)
  | createAssociatedTokenAccount (funder owner mint tokenProgram : Nat)
deriving DecidableEq, Repr

/-- Whether an instruction is one of the two fee-control instructions. -/
def isFeeControl : Instruction → Bool
  | .setComputeUnitLimit _ => true
  | .setComputeUnitPrice _ => true
  | _ => false

/-- An instruction list is fee-prepended when it starts with exactly the
compute-unit limit followed by the compute-unit price, and the remaining
(action) instructions contain no further fee-control instruction. -/
def feePrepended : List Instruction → Bool
  | .setComputeUnitLimit _ :: .setComputeUnitPrice _ :: rest =>
      rest.all fun i => !isFeeControl i
  | _ => false

/-- Signing keypair (only its public key matters to the claims). -/
structure Keypair where
  pubkey : Nat
deriving DecidableEq, Repr

/-- The `Miner` struct of src/main.rs.  The `rpc_client` handle is not a
field here: every RPC interaction is passed explicitly to the functions
that perform it.  `latest_blockhash` is the contents of the
`Arc<Mutex<(Hash, u64)>>` freshness cell. -/
structure Miner where
  keypair : Keypair
  priority_fee : Nat
  rpc_url : String
  latest_blockhash : Nat × Nat
deriving DecidableEq, Repr

/-- `Miner::signer` returns the keypair. -/
def Miner.signer (m : Miner) : Keypair := m.keypair

/-- Token decimals of the ore mint (external `ore` crate constant; the
spec's scaling scenario fixes it at 9 decimal places). -/
def TOKEN_DECIMALS : Nat := 9

/-- Proof account record: only `claimable_rewards : u64` is read by claim. -/
structure Proof where
  claimable_rewards : Nat
deriving DecidableEq, Repr

/-- The branch test of src/claim.rs line 11: `amountf < 0.0` where
`amountf = (amount as f64) / 10f64.powf(TOKEN_DECIMALS)`.  Embedded as the
exact rational comparison, which agrees with the IEEE-754 evaluation for
every `u64` amount (see the module comment). -/
def nothingToClaimGuard (amount : Nat) : Bool :=
  decide ((amount : ℚ) / (10 : ℚ) ^ TOKEN_DECIMALS < 0)

/-- Results of the RPC calls `initialize_ata` can make: the
`get_token_account` fetch and (when it submits) the outcome of
`send_and_confirm` on the create-account transaction. -/
structure AtaEnv where
  getTokenAccount : Except TransportErr (Option Nat)
  createResult : Except TransportErr Nat
deriving Repr

/-- Return value of the embedded `Miner::initialize_ata` (src/claim.rs
lines 37–71): the address returned to the caller, plus the list of
instruction slices handed to `send_and_confirm` (empty when the early
return fires). -/
structure AtaResult where
  address : Nat
  submissions : List (List Instruction)
deriving DecidableEq, Repr

/-- Embedding of `Miner::initialize_ata` (named `init_ata` here).  It
derives the associated token address, early-returns it when
`get_token_account` yields `Ok(Some _)`, and otherwise hands the single
`create_associated_token_account` instruction to `send_and_confirm`;
both the success and the failure arm of that submission only print and
fall through to return the derived address (`env.createResult` is
therefore not consulted for the return value, exactly as in the source). -/
def init_ata (m : Miner) (ataDerive : Nat → Nat → Nat) (mint tokenProgramId : Nat)
    (env : AtaEnv) : AtaResult :=
  let token_account_pubkey := ataDerive m.signer.pubkey mint
  match env.getTokenAccount with
  | .ok (some _) => ⟨token_account_pubkey, []⟩
  | _ =>
    let ix := Instruction.createAssociatedTokenAccount
      m.signer.pubkey m.signer.pubkey mint tokenProgramId
    ⟨token_account_pubkey, [[ix]]⟩

/-- Outcome of the embedded `Miner::claim`: either the early return that
prints "nothing to claim, exit now.", or a submission of the built
instruction list (recording the beneficiary used in the transfer). -/
inductive ClaimOutcome
  | nothingToClaim
  | submitted (ixs : List Instruction) (beneficiary : Nat)
deriving DecidableEq, Repr

/-- Embedding of `Miner::claim` (src/claim.rs lines 7–35).
`cuLimitClaim` is the `CU_LIMIT_CLAIM` constant from `cu_limits.rs`
(its numeric value is irrelevant to every claim).  The function reads
the proof's `claimable_rewards`, takes the `amountf < 0.0` early return
if it fires, otherwise obtains the beneficiary from `initialize_ata`,
prepends the compute-unit-limit and compute-unit-price instructions and
hands the three-instruction list to `send_and_confirm`. -/
def claimCmd (m : Miner) (proof : Proof) (ataDerive : Nat → Nat → Nat)
    (mint tokenProgramId cuLimitClaim : Nat) (env : AtaEnv) : ClaimOutcome :=
  let amount := proof.claimable_rewards
  if nothingToClaimGuard amount then
    ClaimOutcome.nothingToClaim
  else
    let beneficiary := (init_ata m ataDerive mint tokenProgramId env).address
    let cu_limit_ix := Instruction.setComputeUnitLimit cuLimitClaim
    let cu_price_ix := Instruction.setComputeUnitPrice m.priority_fee
    let ix := Instruction.oreClaim m.signer.pubkey beneficiary amount
    ClaimOutcome.submitted [cu_limit_ix, cu_price_ix, ix] beneficiary

/-- Embedding of `Miner::register` (src/register.rs lines 6–20), returning
the list of instruction slices handed to `send_and_confirm`: when the
`get_account` fetch of the derived proof address succeeds (`is_ok`) the
function returns early and submits nothing; on any fetch error it builds
the single `ore::instruction::register` instruction and submits it. -/
def registerCmd (m : Miner) (proofFetch : Except FetchErr Nat) :
    List (List Instruction) :=
  match proofFetch with
  | .ok _ => []
  | .error _ => [[Instruction.oreRegister m.signer.pubkey]]

/-- One scan result of the embedded `Miner::busses` loop (src/busses.rs
lines 7–17): the list of bus records printed, paired with whether the
loop panicked.  For each `BUS_ADDRESSES` entry the loop fetches the
account data and calls `.unwrap()` on the result — a transport error
there panics and nothing further is printed; on fetched data,
`Bus::try_from_bytes` success prints the record and failure is the
silent `Err(_) => {}` arm, and the loop moves on either way.
`decode` stands for the external `Bus::try_from_bytes`; the scan is a
function of the per-address fetch results. -/
def bussesRun (decode : List Nat → Option Nat) :
    List (Except TransportErr (List Nat)) → List Nat × Bool
  | [] => ([], false)
  | .error _ :: _ => ([], true)
  | .ok data :: rest =>
    let r := bussesRun decode rest
    ((decode data).toList ++ r.1, r.2)

/-- One iteration of the body of `poll_latest_blockhash` (src/main.rs
lines 263–279) after the sleep: on a successful fetch the cache cell is
overwritten with the new `(hash, height)` pair; on a failed fetch the
error is printed and `continue` leaves the cell untouched.  No branch
breaks out of the loop. -/
def pollStep (current : Nat × Nat) (fetch : Option (Nat × Nat)) : Nat × Nat :=
  match fetch with
  | some blockhash => blockhash
  | none => current

/-- The cache contents after the refresh loop has consumed a finite
prefix of fetch outcomes, starting from the token installed by
`Miner::new`. -/
def pollRun (start : Nat × Nat) (fetches : List (Option (Nat × Nat))) : Nat × Nat :=
  fetches.foldl pollStep start

/-- Embedding of `Miner::get_latest_blockhash` (src/main.rs lines
253–256): lock the cell and copy the current token out. -/
def get_latest_blockhash (cache : Nat × Nat) : Nat × Nat := cache

/-- Startup error of `Miner::new`: keypair file unreadable, or the single
blocking blockhash fetch failed. -/
inductive NewErr
  | keypair (msg : String)
  | transport (e : TransportErr)
deriving DecidableEq, Repr

/-- Embedding of `Miner::new` (src/main.rs lines 225–243).  RPC responses
are a stream `fetchStream : Nat → _` of which `k` is the index of the
next unconsumed response; the returned index records how many fetches
were performed, so "no retry" is the fact that the index advances by
exactly one.  A keypair read error propagates before any fetch; then the
one blocking `get_latest_blockhash_with_commitment` call either
propagates its error through `?` or yields the initial cache token. -/
def minerNew (rpc_url : String) (priority_fee : Nat)
    (readKeypair : Except String Keypair)
    (fetchStream : Nat → Except TransportErr (Nat × Nat)) (k : Nat) :
    Except NewErr Miner × Nat :=
  match readKeypair with
  | .error e => (.error (.keypair e), k)
  | .ok kp =>
    match fetchStream k with
    | .error e => (.error (.transport e), k + 1)
    | .ok blockhash => (.ok ⟨kp, priority_fee, rpc_url, blockhash⟩, k + 1)

/-- What `main` (src/main.rs lines 161–222) reaches before dispatching on
the parsed command: either `Miner::new` failed and the `?` makes `main`
return the error (the process exits with a failure status, no command
runs), or the miner is constructed and the command dispatch begins. -/
inductive StartupOutcome
  | exitFailure (e : NewErr)
  | started (m : Miner)
deriving DecidableEq, Repr

/-- Embedding of the startup portion of `main`: run `Miner::new` on a
fresh response stream and propagate its error, reporting how many
blockhash fetches were performed before any command ran. -/
def mainStartup (rpc_url : String) (priority_fee : Nat)
    (readKeypair : Except String Keypair)
    (fetchStream : Nat → Except TransportErr (Nat × Nat)) :
    StartupOutcome × Nat :=
  match minerNew rpc_url priority_fee readKeypair fetchStream 0 with
  | (.error e, k) => (.exitFailure e, k)
  | (.ok m, k) => (.started m, k)

/-! Helper lemmas (shared; not tied to a single claim). -/

/-- The early-return test of `claim` is false for every `u64` amount:
a non-negative value divided by the positive constant `10 ^ 9` is never
strictly negative. -/
theorem nothingToClaimGuard_eq_false (amount : Nat) :
    nothingToClaimGuard amount = false := by
  simp only [nothingToClaimGuard, decide_eq_false_iff_not, not_lt]
  positivity

/-- Whatever the `get_token_account` outcome, `init_ata` returns the
deterministically derived associated-token address. -/
theorem init_ata_address_eq (m : Miner) (d : Nat → Nat → Nat)
    (mint tp : Nat) (env : AtaEnv) :
    (init_ata m d mint tp env).address = d m.signer.pubkey mint := by
  obtain ⟨g, c⟩ := env
  rcases g with e | o
  · rfl
  · rcases o with _ | a <;> rfl

/-- A run of the refresh loop over failures only leaves the cache cell
untouched. -/
theorem pollRun_replicate_none (s : Nat × Nat) (N : Nat) :
    pollRun s (List.replicate N none) = s := by
  induction N with
  | zero => rfl
  | succ n ih => simpa [pollRun, List.replicate_succ, pollStep] using ih

/-- The cache cell always holds the startup token or a token delivered by
some successful fetch of the run. -/
theorem pollRun_sourced (fetches : List (Option (Nat × Nat))) :
    ∀ s, pollRun s fetches = s ∨ some (pollRun s fetches) ∈ fetches := by
  induction fetches with
  | nil => intro s; exact Or.inl rfl
  | cons f rest ih =>
    intro s
    rcases ih (pollStep s f) with h | h
    · rcases f with _ | bh
      · exact Or.inl (by simpa [pollRun, pollStep] using h)
      · refine Or.inr ?_
        have : pollRun s (some bh :: rest) = bh := by
          simpa [pollRun, pollStep] using h
        simp [this]
    · exact Or.inr (List.mem_cons_of_mem _ (by simpa [pollRun] using h))

/-! Claim theorems. -/

/-- C1: with `claimable_rewards = 0` the guard `amountf < 0.0` is false
(`0.0 < 0.0` does not hold), so `claim` does NOT take the
"nothing to claim" early return: it derives the beneficiary, builds the
fee-control pair plus an `ore::instruction::claim` for the exact amount
0, and hands the transaction to `send_and_confirm` — contradicting the
claim that at balance 0 no transaction is built or sent.  Evaluated here
at a concrete miner (signer pubkey 1, priority fee 2, derived
associated-token address 1003). -/
theorem claim_zero_balance_still_submits :
    claimCmd ⟨⟨1⟩, 2, "u", (0, 0)⟩ ⟨0⟩ (fun owner mint => 1000 * owner + mint)
      3 4 10 ⟨.ok none, .ok 0⟩ =
      ClaimOutcome.submitted
        [Instruction.setComputeUnitLimit 10, Instruction.setComputeUnitPrice 2,
         Instruction.oreClaim 1 1003 0] 1003 := by
  simp [claimCmd, nothingToClaimGuard_eq_false, init_ata, Miner.signer]

/-- C2: register is idempotent.  When the `get_account` fetch of the
derived proof address succeeds (the proof account exists), `register`
returns early and hands nothing to the submitter; when the account is
absent (the fetch fails with not-found), it submits exactly one slice
holding exactly the one create-proof-account instruction. -/
theorem register_idempotent (m : Miner) :
    (∀ acct : Nat, registerCmd m (.ok acct) = []) ∧
    registerCmd m (.error .accountNotFound) =
      [[Instruction.oreRegister m.signer.pubkey]] :=
  ⟨fun _ => rfl, rfl⟩

/-- C3 counterexample: the claim fails on the register path.  The
instruction slice `register` passes to `send_and_confirm` is the bare
`ore::instruction::register` instruction: it is not prepended with the
two fee-control instructions. -/
theorem register_submission_not_fee_prepended :
    registerCmd ⟨⟨1⟩, 2, "u", (0, 0)⟩ (.error .accountNotFound) =
      [[Instruction.oreRegister 1]] ∧
    feePrepended [Instruction.oreRegister 1] = false :=
  ⟨rfl, rfl⟩

/-- C3 amended: only the claim path prepends the two fee-control
instructions (compute-unit limit, then compute-unit price from the
miner's priority-fee policy) before its action instruction; the register
and associated-token-account-creation paths hand the submitter exactly
their single action instruction, with no fee-control instructions. -/
theorem fee_prepend_claim_path_only (m : Miner) (proof : Proof)
    (d : Nat → Nat → Nat) (mint tp cu : Nat) (env : AtaEnv) (e : FetchErr) :
    claimCmd m proof d mint tp cu env =
      ClaimOutcome.submitted
        [Instruction.setComputeUnitLimit cu,
         Instruction.setComputeUnitPrice m.priority_fee,
         Instruction.oreClaim m.signer.pubkey (d m.signer.pubkey mint)
           proof.claimable_rewards]
        (d m.signer.pubkey mint) ∧
    feePrepended
        [Instruction.setComputeUnitLimit cu,
         Instruction.setComputeUnitPrice m.priority_fee,
         Instruction.oreClaim m.signer.pubkey (d m.signer.pubkey mint)
           proof.claimable_rewards] = true ∧
    registerCmd m (.error e) = [[Instruction.oreRegister m.signer.pubkey]] ∧
    feePrepended [Instruction.oreRegister m.signer.pubkey] = false ∧
    ((init_ata m d mint tp env).submissions = [] ∨
      (init_ata m d mint tp env).submissions =
        [[Instruction.createAssociatedTokenAccount m.signer.pubkey
            m.signer.pubkey mint tp]]) ∧
    feePrepended
        [Instruction.createAssociatedTokenAccount m.signer.pubkey
            m.signer.pubkey mint tp] = false := by
  refine ⟨?_, rfl, rfl, rfl, ?_, rfl⟩
  · simp [claimCmd, nothingToClaimGuard_eq_false, init_ata_address_eq]
  · obtain ⟨g, c⟩ := env
    rcases g with e' | o
    · exact Or.inr rfl
    · rcases o with _ | a
      · exact Or.inr rfl
      · exact Or.inl rfl

/-- C4: for a strictly positive claimable balance, the transfer
instruction handed to the submitter carries exactly the raw
`claimable_rewards` amount read from the proof account, not a
caller-supplied or decimal-rounded value. -/
theorem claim_transfers_exact_amount (m : Miner) (proof : Proof)
    (d : Nat → Nat → Nat) (mint tp cu : Nat) (env : AtaEnv)
    (h : 0 < proof.claimable_rewards) :
    claimCmd m proof d mint tp cu env =
      ClaimOutcome.submitted
        [Instruction.setComputeUnitLimit cu,
         Instruction.setComputeUnitPrice m.priority_fee,
         Instruction.oreClaim m.signer.pubkey
           (init_ata m d mint tp env).address proof.claimable_rewards]
        (init_ata m d mint tp env).address := by
  simp [claimCmd, nothingToClaimGuard_eq_false]

/-- Witness for C4 at claimable balance 5. -/
theorem claim_transfers_exact_amount_witness :
    0 < (5 : Nat) ∧
    claimCmd ⟨⟨1⟩, 2, "u", (0, 0)⟩ ⟨5⟩ (fun owner mint => 1000 * owner + mint)
      3 4 10 ⟨.ok none, .ok 0⟩ =
      ClaimOutcome.submitted
        [Instruction.setComputeUnitLimit 10, Instruction.setComputeUnitPrice 2,
         Instruction.oreClaim 1 1003 5] 1003 :=
  ⟨by decide,
    claim_transfers_exact_amount ⟨⟨1⟩, 2, "u", (0, 0)⟩ ⟨5⟩
      (fun owner mint => 1000 * owner + mint) 3 4 10 ⟨.ok none, .ok 0⟩
      (by decide)⟩

/-- C5: after the initial synchronous fetch installed `start`, the cache
read by `get_latest_blockhash` is never empty: whatever finite prefix of
refresh outcomes the loop has consumed, appending any number `N` of
consecutive fetch failures leaves the token read out unchanged (the
failure arm only prints and `continue`s, never terminating the loop or
replacing the token), and the token read out is always either the
startup token or one delivered by a successful fetch of the run. -/
theorem freshness_cache_keeps_last_token (start : Nat × Nat)
    (fetches : List (Option (Nat × Nat))) (N : Nat) :
    get_latest_blockhash (pollRun start (fetches ++ List.replicate N none)) =
      get_latest_blockhash (pollRun start fetches) ∧
    (pollRun start fetches = start ∨ some (pollRun start fetches) ∈ fetches) := by
  constructor
  · show pollRun start (fetches ++ List.replicate N none) = pollRun start fetches
    simpa [pollRun, List.foldl_append] using
      pollRun_replicate_none (pollRun start fetches) N
  · exact pollRun_sourced fetches start

/-- C6: when every fetch in the `busses` scan delivers bytes, the printed
output is exactly the in-order list of records that decode successfully:
accounts whose bytes fail to decode are silently omitted, and a decode
failure never aborts the scan of the remaining accounts (no panic, and
all later accounts are still processed). -/
theorem busses_skips_undecodable (decode : List Nat → Option Nat)
    (datas : List (List Nat)) :
    bussesRun decode (datas.map Except.ok) = (datas.filterMap decode, false) := by
  induction datas with
  | nil => rfl
  | cons d t ih =>
    cases hd : decode d <;>
      simp [bussesRun, List.filterMap_cons, hd, ih, Prod.ext_iff]

/-- C7: startup performs exactly one blocking freshness-token fetch
before any command runs (the fetch-stream index always advances from 0
to exactly 1, so no retry is ever attempted), and when that single fetch
fails, `Miner::new` propagates the error through `?` and `main` exits
with a failure before dispatching any command. -/
theorem startup_one_fetch_fatal_on_error (url : String) (fee : Nat)
    (kp : Keypair) (stream : Nat → Except TransportErr (Nat × Nat)) :
    (mainStartup url fee (.ok kp) stream).2 = 1 ∧
    (∀ e, stream 0 = .error e →
      (mainStartup url fee (.ok kp) stream).1 = .exitFailure (.transport e)) := by
  constructor
  · cases h : stream 0 <;> simp [mainStartup, minerNew, h]
  · intro e he
    simp [mainStartup, minerNew, he]

/-- Witness for C7: with a stream whose first response is a transport
error, startup performs exactly one fetch and exits with that failure. -/
theorem startup_one_fetch_fatal_on_error_witness :
    (mainStartup "u" 2 (.ok ⟨1⟩) (fun _ => .error ⟨7⟩)).2 = 1 ∧
    (mainStartup "u" 2 (.ok ⟨1⟩) (fun _ => .error ⟨7⟩)).1 =
      .exitFailure (.transport ⟨7⟩) :=
  ⟨(startup_one_fetch_fatal_on_error "u" 2 ⟨1⟩ (fun _ => .error ⟨7⟩)).1,
   (startup_one_fetch_fatal_on_error "u" 2 ⟨1⟩ (fun _ => .error ⟨7⟩)).2 ⟨7⟩ rfl⟩

/-- C8 counterexample: a transport error on the second bus-account fetch
makes the `.unwrap()` in `busses` panic (the scan's panic flag is set):
the first bus (which decoded to 3) was printed, the third is never
processed, and the process aborts instead of logging and continuing. -/
theorem busses_transport_error_panics :
    bussesRun (fun data => data.head?)
      [Except.ok [3], Except.error ⟨7⟩, Except.ok [5]] = ([3], true) := rfl

/-- C8 amended: a transport error during a cache refresh is recoverable —
the loop keeps the previous token and continues — but a transport error
during the `busses` account fetch panics the process via `.unwrap()`,
whatever accounts precede or follow it. -/
theorem transport_error_refresh_recoverable_busses_panics (cur : Nat × Nat)
    (decode : List Nat → Option Nat) (pre : List (List Nat))
    (e : TransportErr) (post : List (Except TransportErr (List Nat))) :
    pollStep cur none = cur ∧
    (bussesRun decode (pre.map Except.ok ++ Except.error e :: post)).2 = true := by
  refine ⟨rfl, ?_⟩
  induction pre with
  | nil => rfl
  | cons d t ih => simpa [bussesRun] using ih

/-- C9: register treats every failure of the proof-account fetch — the
not-found case and transport errors alike (`is_ok` inspects nothing
else) — as "not yet registered", and proceeds to build and submit the
create-proof-account transaction. -/
theorem register_any_fetch_error_submits (m : Miner) (e : FetchErr) :
    registerCmd m (.error e) = [[Instruction.oreRegister m.signer.pubkey]] := rfl

/-- C10: whatever the outcome of its internal steps — token account
already present (`Ok(Some _)`), absent, fetch failed, creation
transaction succeeded or failed — `initialize_ata` returns the
deterministically derived associated-token address, and `claim` uses
exactly that address as the transfer beneficiary. -/
theorem ata_address_always_derived (m : Miner) (proof : Proof)
    (d : Nat → Nat → Nat) (mint tp cu : Nat) (env : AtaEnv) :
    (init_ata m d mint tp env).address = d m.signer.pubkey mint ∧
    claimCmd m proof d mint tp cu env =
      ClaimOutcome.submitted
        [Instruction.setComputeUnitLimit cu,
         Instruction.setComputeUnitPrice m.priority_fee,
         Instruction.oreClaim m.signer.pubkey (d m.signer.pubkey mint)
           proof.claimable_rewards]
        (d m.signer.pubkey mint) := by
  refine ⟨init_ata_address_eq m d mint tp env, ?_⟩
  simp [claimCmd, nothingToClaimGuard_eq_false, init_ata_address_eq]

end OreCli
